import Mathlib

/-!
Verification of the EIP-712 typed-data deserialization and hashing core of
`util/EIP-712` (files `eip712.rs` and `lib.rs`).

The first part embeds `eip712.rs`: the identifier regular expression
`TYPE_REGEX = ^[a-zA-Z_$][a-zA-Z_$0-9\[\]]*$`, the `deserialize_ident`
visitor, and the serde-derived deserializers for `FieldType`, `EIP712Domain`
(with `deny_unknown_fields`) and the outer `EIP712` envelope (with
`deny_unknown_fields`).  JSON values are modelled by the inductive `Json`;
serde's derived struct deserializers are modelled by explicit folds over the
object's entry list, faithful to serde semantics for the attributes written
in the source (`rename_all = "camelCase"`, `rename = "type"`,
`deny_unknown_fields`, `Option` fields optional, unknown fields ignored when
`deny_unknown_fields` is absent, duplicate fields rejected).

The second part models the hashing pipeline (`hash_structured_data` in
`encode.rs`, re-exported by `lib.rs`), whose source is not part of this
tree; those definitions are modelled from the spec and say so in their doc
comments.
-/

/-- JSON-like values, the shape `serde_json::Value` exposes to the
deserializers in `eip712.rs`. -/
inductive Json where
  | null : Json
  | bool (b : Bool) : Json
  | num (n : Int) : Json
  | str (s : String) : Json
  | arr (xs : List Json) : Json
  | obj (fields : List (String × Json)) : Json
deriving Repr

/-- Errors produced by the modelled deserializers: serde custom errors
(`Invalid Identifier '...'` carries the offending string), invalid-type
errors from visitors, and the derive-generated missing / unknown /
duplicate field errors. -/
inductive DeError where
  | invalidIdentifier (s : String) : DeError
  | invalidType (expected : String) : DeError
  | missingField (f : String) : DeError
  | unknownField (f : String) : DeError
  | duplicateField (f : String) : DeError
  | invalidValue (msg : String) : DeError
deriving Repr, DecidableEq

/-- First-character class of `TYPE_REGEX`: `[a-zA-Z_$]`. -/
def isIdentStart (c : Char) : Bool :=
  ('a' ≤ c && c ≤ 'z') || ('A' ≤ c && c ≤ 'Z') || c == '_' || c == '$'

/-- Subsequent-character class of `TYPE_REGEX`: `[a-zA-Z_$0-9\[\]]`. -/
def isIdentCont (c : Char) : Bool :=
  isIdentStart c || ('0' ≤ c && c ≤ '9') || c == '[' || c == ']'

/-- `TYPE_REGEX.is_match`: the anchored regex
`^[a-zA-Z_$][a-zA-Z_$0-9\[\]]*$` from `eip712.rs`. -/
def typeRegexMatch (s : String) : Bool :=
  match s.toList with
  | [] => false
  | c :: cs => isIdentStart c && cs.all isIdentCont

/-- `deserialize_ident` from `eip712.rs`: a visitor that only implements
`visit_str`, checking the string against `TYPE_REGEX` and returning it
unchanged; every non-string JSON value hits the visitor's default methods
and fails with an invalid-type error mentioning the `expecting` message. -/
def deserialize_ident : Json → Except DeError String
  | Json.str v =>
      if typeRegexMatch v then Except.ok v
      else Except.error (DeError.invalidIdentifier v)
  | _ => Except.error (DeError.invalidType "A valid solidity identifier")

/-- `FieldType` from `eip712.rs`: a `name` and a `type` string, both passed
through `deserialize_ident`. -/
structure FieldType where
  name : String
  type_ : String
deriving Repr, DecidableEq

/-- State-passing fold modelling serde's derived `Deserialize` for
`FieldType`: entries are processed in order, `name` and `type` go through
`deserialize_ident`, duplicates are rejected, unknown keys are ignored
(no `deny_unknown_fields` on `FieldType`), and a missing required field is
an error at the end. -/
def deserializeFieldTypeEntries :
    List (String × Json) → Option String → Option String → Except DeError FieldType
  | [], some n, some t => Except.ok ⟨n, t⟩
  | [], none, _ => Except.error (DeError.missingField "name")
  | [], some _, none => Except.error (DeError.missingField "type")
  | (k, v) :: rest, n?, t? =>
      if k = "name" then
        match n? with
        | some _ => Except.error (DeError.duplicateField "name")
        | none =>
            match deserialize_ident v with
            | Except.error e => Except.error e
            | Except.ok n => deserializeFieldTypeEntries rest (some n) t?
      else if k = "type" then
        match t? with
        | some _ => Except.error (DeError.duplicateField "type")
        | none =>
            match deserialize_ident v with
            | Except.error e => Except.error e
            | Except.ok t => deserializeFieldTypeEntries rest n? (some t)
      else deserializeFieldTypeEntries rest n? t?

/-- Deserializing one field declaration (`FieldType`): the JSON value must
be an object. -/
def deserializeFieldType : Json → Except DeError FieldType
  | Json.obj fields => deserializeFieldTypeEntries fields none none
  | _ => Except.error (DeError.invalidType "struct FieldType")

/-- Deserializing a `Vec<FieldType>`: a JSON array, each element a field
declaration, in order. -/
def deserializeFieldTypeList : List Json → Except DeError (List FieldType)
  | [] => Except.ok []
  | j :: rest =>
      match deserializeFieldType j with
      | Except.error e => Except.error e
      | Except.ok ft =>
          match deserializeFieldTypeList rest with
          | Except.error e => Except.error e
          | Except.ok fts => Except.ok (ft :: fts)

/-- Hex digit, as in hex parsing of `U256` / `Address` / `H256` values. -/
def isHexDigitChar (c : Char) : Bool :=
  ('0' ≤ c && c ≤ '9') || ('a' ≤ c && c ≤ 'f') || ('A' ≤ c && c ≤ 'F')

/-- Numeric value of one hex digit. -/
def hexDigitVal (c : Char) : Nat :=
  if '0' ≤ c && c ≤ '9' then c.toNat - '0'.toNat
  else if 'a' ≤ c && c ≤ 'f' then c.toNat - 'a'.toNat + 10
  else if 'A' ≤ c && c ≤ 'F' then c.toNat - 'A'.toNat + 10
  else 0

/-- Big-endian value of a hex digit string. -/
def hexToNat (cs : List Char) : Nat :=
  cs.foldl (fun a c => a * 16 + hexDigitVal c) 0

/-- Hex digit pairs to bytes, big-endian; requires an even number of
digits. -/
def hexToBytes : List Char → Option (List Nat)
  | [] => some []
  | [_] => none
  | hi :: lo :: rest =>
      if isHexDigitChar hi && isHexDigitChar lo then
        match hexToBytes rest with
        | some bs => some ((hexDigitVal hi * 16 + hexDigitVal lo) :: bs)
        | none => none
      else none

/-- `some rest` when the second list starts with the first (the prefix);
used to strip `0x` prefixes and primitive-name prefixes. -/
def charsAfterPrefix : List Char → List Char → Option (List Char)
  | [], rest => some rest
  | _ :: _, [] => none
  | p :: ps, c :: cs => if c = p then charsAfterPrefix ps cs else none

/-- Modelled from the spec: the external deserializer for `chainId`
(`ethereum_types::U256`, not part of this tree) produces an unsigned
256-bit integer, accepting a `0x`-prefixed hex string (as in the source's
own test, `"chainId": "0x1"`) or a non-negative decimal number bounded by
256 bits. -/
def deserializeU256 : Json → Except DeError Nat
  | Json.str s =>
      match charsAfterPrefix ['0', 'x'] s.toList with
      | some ds =>
          if ds ≠ [] ∧ ds.all isHexDigitChar ∧ ds.length ≤ 64 then
            Except.ok (hexToNat ds)
          else Except.error (DeError.invalidValue "invalid hex for U256")
      | none => Except.error (DeError.invalidValue "missing 0x prefix for U256")
  | Json.num n =>
      if 0 ≤ n ∧ n < (2 : Int) ^ 256 then Except.ok n.toNat
      else Except.error (DeError.invalidValue "out of range for U256")
  | _ => Except.error (DeError.invalidType "uint256")

/-- Modelled from the spec: the external deserializer for
`verifyingContract` (`ethereum_types::Address`, not part of this tree)
produces a 20-byte address from a `0x`-prefixed string of exactly 40 hex
digits. -/
def deserializeAddress : Json → Except DeError (List Nat)
  | Json.str s =>
      match charsAfterPrefix ['0', 'x'] s.toList with
      | some ds =>
          if ds.length = 40 then
            match hexToBytes ds with
            | some bs => Except.ok bs
            | none => Except.error (DeError.invalidValue "invalid hex for Address")
          else Except.error (DeError.invalidValue "wrong length for Address")
      | none => Except.error (DeError.invalidValue "missing 0x prefix for Address")
  | _ => Except.error (DeError.invalidType "address")

/-- Modelled from the spec: the external deserializer for `salt`
(`ethereum_types::H256`, not part of this tree) produces a 32-byte value
from a `0x`-prefixed string of exactly 64 hex digits. -/
def deserializeH256 : Json → Except DeError (List Nat)
  | Json.str s =>
      match charsAfterPrefix ['0', 'x'] s.toList with
      | some ds =>
          if ds.length = 64 then
            match hexToBytes ds with
            | some bs => Except.ok bs
            | none => Except.error (DeError.invalidValue "invalid hex for H256")
          else Except.error (DeError.invalidValue "wrong length for H256")
      | none => Except.error (DeError.invalidValue "missing 0x prefix for H256")
  | _ => Except.error (DeError.invalidType "bytes32")

/-- `EIP712Domain` from `eip712.rs`: `name`, `version`, `chain_id`,
`verifying_contract`, optional `salt`. -/
structure EIP712Domain where
  name : String
  version : String
  chain_id : Nat
  verifying_contract : List Nat
  salt : Option (List Nat)
deriving Repr, DecidableEq

/-- State-passing fold modelling serde's derived `Deserialize` for
`EIP712Domain` with `rename_all = "camelCase"` and `deny_unknown_fields`:
keys are `name`, `version`, `chainId`, `verifyingContract`, `salt`; any
other key is an immediate unknown-field error; duplicates are rejected;
`salt` is an `Option` field so it may be absent (defaulting to `none`),
the other four are required. -/
def deserializeDomainEntries :
    List (String × Json) → Option String → Option String → Option Nat →
    Option (List Nat) → Option (Option (List Nat)) → Except DeError EIP712Domain
  | [], n?, v?, c?, a?, s? =>
      match n?, v?, c?, a? with
      | some n, some v, some c, some a =>
          Except.ok ⟨n, v, c, a, s?.getD none⟩
      | none, _, _, _ => Except.error (DeError.missingField "name")
      | some _, none, _, _ => Except.error (DeError.missingField "version")
      | some _, some _, none, _ => Except.error (DeError.missingField "chainId")
      | some _, some _, some _, none =>
          Except.error (DeError.missingField "verifyingContract")
  | (k, j) :: rest, n?, v?, c?, a?, s? =>
      if k = "name" then
        match n? with
        | some _ => Except.error (DeError.duplicateField "name")
        | none =>
            match j with
            | Json.str n => deserializeDomainEntries rest (some n) v? c? a? s?
            | _ => Except.error (DeError.invalidType "string")
      else if k = "version" then
        match v? with
        | some _ => Except.error (DeError.duplicateField "version")
        | none =>
            match j with
            | Json.str v => deserializeDomainEntries rest n? (some v) c? a? s?
            | _ => Except.error (DeError.invalidType "string")
      else if k = "chainId" then
        match c? with
        | some _ => Except.error (DeError.duplicateField "chainId")
        | none =>
            match deserializeU256 j with
            | Except.error e => Except.error e
            | Except.ok c => deserializeDomainEntries rest n? v? (some c) a? s?
      else if k = "verifyingContract" then
        match a? with
        | some _ => Except.error (DeError.duplicateField "verifyingContract")
        | none =>
            match deserializeAddress j with
            | Except.error e => Except.error e
            | Except.ok a => deserializeDomainEntries rest n? v? c? (some a) s?
      else if k = "salt" then
        match s? with
        | some _ => Except.error (DeError.duplicateField "salt")
        | none =>
            match j with
            | Json.null => deserializeDomainEntries rest n? v? c? a? (some none)
            | _ =>
                match deserializeH256 j with
                | Except.error e => Except.error e
                | Except.ok h =>
                    deserializeDomainEntries rest n? v? c? a? (some (some h))
      else Except.error (DeError.unknownField k)

/-- Deserializing the domain record: the JSON value must be an object. -/
def deserializeEIP712Domain : Json → Except DeError EIP712Domain
  | Json.obj fields => deserializeDomainEntries fields none none none none none
  | _ => Except.error (DeError.invalidType "struct EIP712Domain")

/-- Deserializing `MessageTypes = HashMap<String, Vec<FieldType>>`: a JSON
object whose every value is an array of field declarations.  The Rust
`HashMap` is unordered; the model keeps the entries as a list in input
order (which also records duplicates the `HashMap` would overwrite). -/
def deserializeMessageTypes : Json → Except DeError (List (String × List FieldType))
  | Json.obj entries =>
      let rec go : List (String × Json) → Except DeError (List (String × List FieldType))
        | [] => Except.ok []
        | (k, v) :: rest =>
            match v with
            | Json.arr xs =>
                match deserializeFieldTypeList xs with
                | Except.error e => Except.error e
                | Except.ok fts =>
                    match go rest with
                    | Except.error e => Except.error e
                    | Except.ok tl => Except.ok ((k, fts) :: tl)
            | _ => Except.error (DeError.invalidType "a sequence")
      go entries
  | _ => Except.error (DeError.invalidType "a map")

/-- `EIP712` from `eip712.rs`: the outer request envelope. -/
structure EIP712 where
  types : List (String × List FieldType)
  primary_type : String
  message : Json
  domain : EIP712Domain

/-- State-passing fold modelling serde's derived `Deserialize` for `EIP712`
with `rename_all = "camelCase"` and `deny_unknown_fields`: keys are
`types`, `primaryType`, `message`, `domain`; any other key is an immediate
unknown-field error; all four fields are required; duplicates are
rejected; `message` is a raw `serde_json::Value` so any JSON value is
accepted for it. -/
def deserializeEIP712Entries :
    List (String × Json) → Option (List (String × List FieldType)) →
    Option String → Option Json → Option EIP712Domain → Except DeError EIP712
  | [], t?, p?, m?, d? =>
      match t?, p?, m?, d? with
      | some t, some p, some m, some d => Except.ok ⟨t, p, m, d⟩
      | none, _, _, _ => Except.error (DeError.missingField "types")
      | some _, none, _, _ => Except.error (DeError.missingField "primaryType")
      | some _, some _, none, _ => Except.error (DeError.missingField "message")
      | some _, some _, some _, none => Except.error (DeError.missingField "domain")
  | (k, j) :: rest, t?, p?, m?, d? =>
      if k = "types" then
        match t? with
        | some _ => Except.error (DeError.duplicateField "types")
        | none =>
            match deserializeMessageTypes j with
            | Except.error e => Except.error e
            | Except.ok t => deserializeEIP712Entries rest (some t) p? m? d?
      else if k = "primaryType" then
        match p? with
        | some _ => Except.error (DeError.duplicateField "primaryType")
        | none =>
            match j with
            | Json.str p => deserializeEIP712Entries rest t? (some p) m? d?
            | _ => Except.error (DeError.invalidType "string")
      else if k = "message" then
        match m? with
        | some _ => Except.error (DeError.duplicateField "message")
        | none => deserializeEIP712Entries rest t? p? (some j) d?
      else if k = "domain" then
        match d? with
        | some _ => Except.error (DeError.duplicateField "domain")
        | none =>
            match deserializeEIP712Domain j with
            | Except.error e => Except.error e
            | Except.ok d => deserializeEIP712Entries rest t? p? m? (some d)
      else Except.error (DeError.unknownField k)

/-- Deserializing the outer envelope: the JSON value must be an object. -/
def deserializeEIP712 : Json → Except DeError EIP712
  | Json.obj fields => deserializeEIP712Entries fields none none none none
  | _ => Except.error (DeError.invalidType "struct EIP712")

/-- Errors of the encoding pipeline, following the spec's error taxonomy
(§7); `typeMismatch` stands for the "value must be a ..." shape failures
whose kind the spec leaves unnamed. -/
inductive EncodeError where
  | undeclaredType (t : String) : EncodeError
  | fieldMismatch (f : String) : EncodeError
  | arrayLengthMismatch : EncodeError
  | invalidHexEncoding : EncodeError
  | integerOverflow : EncodeError
  | structureTooLarge : EncodeError
  | typeMismatch (t : String) : EncodeError
deriving Repr, DecidableEq

/-- UTF-8 encoding of one unicode scalar value, 1–4 bytes. -/
def utf8EncodeChar (c : Char) : List Nat :=
  let n := c.toNat
  if n < 128 then [n]
  else if n < 2048 then [192 + n / 64, 128 + n % 64]
  else if n < 65536 then [224 + n / 4096, 128 + n / 64 % 64, 128 + n % 64]
  else [240 + n / 262144, 128 + n / 4096 % 64, 128 + n / 64 % 64, 128 + n % 64]

/-- UTF-8 bytes of a string. -/
def utf8Encode (s : String) : List Nat :=
  (s.toList.map utf8EncodeChar).flatten

/-- Decimal value of a digit string. -/
def decimalToNat (cs : List Char) : Nat :=
  cs.foldl (fun a c => a * 10 + (c.toNat - '0'.toNat)) 0

/-- `some n` when the character list is a nonempty run of decimal
digits. -/
def parseDecimalDigits (cs : List Char) : Option Nat :=
  if cs ≠ [] ∧ cs.all Char.isDigit then some (decimalToNat cs) else none

/-- Split one trailing array marker off a type string: `"T[]"` gives
`(T, none)`, `"T[3]"` gives `(T, some 3)`, `"T[][2]"` gives
`(T[], some 2)`; `none` when the string does not end in a marker. -/
def stripArraySuffix (s : String) : Option (String × Option Nat) :=
  match s.toList.reverse with
  | ']' :: rest =>
      let digits := rest.takeWhile Char.isDigit
      match rest.drop digits.length with
      | '[' :: base =>
          if base = [] then none
          else some (String.mk base.reverse,
            if digits = [] then none else some (decimalToNat digits.reverse))
      | _ => none
  | _ => none

/-- The bare type name: everything before the first `[`. -/
def typeBaseName (s : String) : String :=
  String.mk (s.toList.takeWhile (fun c => c ≠ '['))

/-- Modelled from the spec: the Dependency Resolver's walk (§4.2, in
`encode.rs`, not part of this tree).  Fuel-bounded worklist: pop a name;
skip it when already visited or not declared; otherwise append it to the
visited list and enqueue the bare type names of its fields.  The visited
set guards cycles. -/
def collectDeps (types : List (String × List FieldType)) :
    Nat → List String → List String → List String
  | 0, visited, _ => visited
  | _ + 1, visited, [] => visited
  | fuel + 1, visited, t :: queue =>
      if t ∈ visited then collectDeps types fuel visited queue
      else
        match types.lookup t with
        | none => collectDeps types fuel visited queue
        | some fields =>
            collectDeps types fuel (visited ++ [t])
              (queue ++ fields.map (fun f => typeBaseName f.type_))

/-- Insert into a lexicographically sorted list of strings. -/
def insertStr (x : String) : List String → List String
  | [] => [x]
  | y :: ys => if x ≤ y then x :: y :: ys else y :: insertStr x ys

/-- Lexicographic insertion sort on strings. -/
def sortStrings (l : List String) : List String :=
  l.foldr insertStr []

/-- Modelled from the spec: a single type's signature
`TypeName(type1 name1,type2 name2,...)` (§4.3). -/
def renderSingleType (types : List (String × List FieldType)) (name : String) :
    String :=
  name ++ "(" ++
    String.intercalate "," (((types.lookup name).getD []).map
      (fun f => f.type_ ++ " " ++ f.name)) ++ ")"

/-- Fuel that bounds the dependency walk: every declared type is expanded
at most once, and each expansion enqueues one name per field. -/
def depFuel (types : List (String × List FieldType)) : Nat :=
  2 + types.length + (types.map (fun p => p.2.length)).sum

/-- Modelled from the spec: the full canonical signature of a root type —
the root's own signature followed by the signatures of every transitively
referenced declared type, sorted lexicographically (§4.2–4.3). -/
def encodeType (types : List (String × List FieldType)) (root : String) :
    String :=
  let deps := collectDeps types (depFuel types) [] [root]
  let rest := sortStrings (deps.filter (fun d => d ≠ root))
  String.join ((root :: rest).map (renderSingleType types))

/-- Modelled from the spec: `typeHash` = digest of the UTF-8 bytes of the
full canonical signature; `UndeclaredType` when the root is absent from
the registry (§4.3). -/
def typeHashE (digest : List Nat → List Nat)
    (types : List (String × List FieldType)) (root : String) :
    Except EncodeError (List Nat) :=
  match types.lookup root with
  | some _ => Except.ok (digest (utf8Encode (encodeType types root)))
  | none => Except.error (EncodeError.undeclaredType root)

/-- 32-byte big-endian representation of a number below `2 ^ 256`. -/
def natToBytes32 (n : Nat) : List Nat :=
  (List.range 32).map (fun i => n / 256 ^ (31 - i) % 256)

/-- Hex string to bytes, tolerating a `0x` prefix. -/
def decodeHexStr (s : String) : Option (List Nat) :=
  hexToBytes
    (match charsAfterPrefix ['0', 'x'] s.toList with
     | some ds => ds
     | none => s.toList)

/-- Integer value forms accepted for `uintN` / `intN`: a JSON number, a
`0x`-prefixed hex string, or a decimal digit string. -/
def parseIntValue : Json → Option Int
  | Json.num n => some n
  | Json.str s =>
      match charsAfterPrefix ['0', 'x'] s.toList with
      | some ds =>
          if ds ≠ [] ∧ ds.all isHexDigitChar then some (Int.ofNat (hexToNat ds))
          else none
      | none =>
          let ds := s.toList
          if ds ≠ [] ∧ ds.all Char.isDigit then some (Int.ofNat (decimalToNat ds))
          else none
  | _ => none

/-- The 32-byte word of a boolean. -/
def boolWord (b : Bool) : List Nat :=
  List.replicate 31 0 ++ [if b then 1 else 0]

/-- Modelled from the spec: the Value Encoder `encodeField` (§4.4, in
`encode.rs`, not part of this tree), fuel-bounded per the spec's §5
recursion-depth recommendation (`StructureTooLarge` past the bound).
Dispatch: trailing array marker, then declared record type, then the
primitive set, else `UndeclaredType`. -/
def encodeField (digest : List Nat → List Nat)
    (types : List (String × List FieldType)) :
    Nat → String → Json → Except EncodeError (List Nat)
  | 0, _, _ => Except.error EncodeError.structureTooLarge
  | fuel + 1, ty, value =>
      match stripArraySuffix ty with
      | some (base, len?) =>
          match value with
          | Json.arr xs =>
              match len? with
              | some n =>
                  if xs.length = n then do
                    let elems ← xs.mapM (encodeField digest types fuel base)
                    pure (digest elems.flatten)
                  else Except.error EncodeError.arrayLengthMismatch
              | none => do
                  let elems ← xs.mapM (encodeField digest types fuel base)
                  pure (digest elems.flatten)
          | _ => Except.error (EncodeError.typeMismatch ty)
      | none =>
          match types.lookup ty with
          | some fields =>
              match value with
              | Json.obj kvs =>
                  let names := fields.map FieldType.name
                  let keys := kvs.map Prod.fst
                  if names.all (fun n => keys.contains n) &&
                     keys.all (fun k => names.contains k) then do
                    let th ← typeHashE digest types ty
                    let encs ← fields.mapM (fun f =>
                      match kvs.lookup f.name with
                      | some v => encodeField digest types fuel f.type_ v
                      | none => Except.error (EncodeError.fieldMismatch f.name))
                    pure (digest (th ++ encs.flatten))
                  else Except.error (EncodeError.fieldMismatch ty)
              | _ => Except.error (EncodeError.typeMismatch ty)
          | none =>
              if ty = "string" then
                match value with
                | Json.str s => Except.ok (digest (utf8Encode s))
                | _ => Except.error (EncodeError.typeMismatch ty)
              else if ty = "bytes" then
                match value with
                | Json.str s =>
                    match decodeHexStr s with
                    | some bs => Except.ok (digest bs)
                    | none => Except.error EncodeError.invalidHexEncoding
                | _ => Except.error (EncodeError.typeMismatch ty)
              else if ty = "bool" then
                match value with
                | Json.bool b => Except.ok (boolWord b)
                | _ => Except.error (EncodeError.typeMismatch ty)
              else if ty = "address" then
                match value with
                | Json.str s =>
                    match charsAfterPrefix ['0', 'x'] s.toList with
                    | some ds =>
                        if ds.length = 40 then
                          match hexToBytes ds with
                          | some bs => Except.ok (List.replicate 12 0 ++ bs)
                          | none => Except.error EncodeError.invalidHexEncoding
                        else Except.error EncodeError.invalidHexEncoding
                    | none => Except.error EncodeError.invalidHexEncoding
                | _ => Except.error (EncodeError.typeMismatch ty)
              else
                match charsAfterPrefix ['u', 'i', 'n', 't'] ty.toList with
                | some uintSuffix =>
                    match parseDecimalDigits uintSuffix with
                    | some n =>
                        if 8 ≤ n ∧ n ≤ 256 ∧ n % 8 = 0 then
                          match parseIntValue value with
                          | some v =>
                              if 0 ≤ v ∧ v < (2 : Int) ^ n then
                                Except.ok (natToBytes32 v.toNat)
                              else Except.error EncodeError.integerOverflow
                          | none => Except.error (EncodeError.typeMismatch ty)
                        else Except.error (EncodeError.undeclaredType ty)
                    | none => Except.error (EncodeError.undeclaredType ty)
                | none =>
                match charsAfterPrefix ['i', 'n', 't'] ty.toList with
                | some intSuffix =>
                    match parseDecimalDigits intSuffix with
                    | some n =>
                        if 8 ≤ n ∧ n ≤ 256 ∧ n % 8 = 0 then
                          match parseIntValue value with
                          | some v =>
                              if -((2 : Int) ^ (n - 1)) ≤ v ∧
                                  v < (2 : Int) ^ (n - 1) then
                                Except.ok (natToBytes32 ((v % (2 : Int) ^ 256).toNat))
                              else Except.error EncodeError.integerOverflow
                          | none => Except.error (EncodeError.typeMismatch ty)
                        else Except.error (EncodeError.undeclaredType ty)
                    | none => Except.error (EncodeError.undeclaredType ty)
                | none =>
                match charsAfterPrefix ['b', 'y', 't', 'e', 's'] ty.toList with
                | some bytesSuffix =>
                    match parseDecimalDigits bytesSuffix with
                    | some n =>
                        if 1 ≤ n ∧ n ≤ 32 then
                          match value with
                          | Json.str s =>
                              match decodeHexStr s with
                              | some bs =>
                                  if bs.length = n then
                                    Except.ok (bs ++ List.replicate (32 - n) 0)
                                  else Except.error EncodeError.invalidHexEncoding
                              | none => Except.error EncodeError.invalidHexEncoding
                          | _ => Except.error (EncodeError.typeMismatch ty)
                        else Except.error (EncodeError.undeclaredType ty)
                    | none => Except.error (EncodeError.undeclaredType ty)
                | none => Except.error (EncodeError.undeclaredType ty)

/-- Modelled from the spec: the Domain's implicit field list — the
non-absent subset of name, version, chainId, verifyingContract, salt, in
this fixed order (§3, §4.4). -/
def domainFieldList (d : EIP712Domain) : List FieldType :=
  [⟨"name", "string"⟩, ⟨"version", "string"⟩, ⟨"chainId", "uint256"⟩,
   ⟨"verifyingContract", "address"⟩] ++
  (match d.salt with | some _ => [⟨"salt", "bytes32"⟩] | none => [])

/-- Modelled from the spec: the implicit `EIP712Domain` type's single-type
signature. -/
def domainSignature (d : EIP712Domain) : String :=
  "EIP712Domain(" ++
    String.intercalate "," ((domainFieldList d).map
      (fun f => f.type_ ++ " " ++ f.name)) ++ ")"

/-- Modelled from the spec: `hashStruct` of the Domain record —
digest(typeHash ++ field encodings in the fixed field order), §4.4. -/
def hashStructDomain (digest : List Nat → List Nat) (d : EIP712Domain) :
    List Nat :=
  let th := digest (utf8Encode (domainSignature d))
  let encs :=
    [digest (utf8Encode d.name), digest (utf8Encode d.version),
     natToBytes32 d.chain_id, List.replicate 12 0 ++ d.verifying_contract] ++
    (match d.salt with | some h => [h] | none => [])
  digest (th ++ encs.flatten)

/-- Modelled from the spec: `hash_structured_data` (`encode.rs`, re-exported
by `lib.rs`, not part of this tree): digest(0x19 ++ 0x01 ++
hashStruct(EIP712Domain, domain) ++ hashStruct(primaryType, message)).
`digest` abstracts the protocol's 256-bit hash; `fuel` is the §5 recursion
bound. -/
def hash_structured_data (digest : List Nat → List Nat) (fuel : Nat)
    (data : EIP712) : Except EncodeError (List Nat) := do
  let dh := hashStructDomain digest data.domain
  let mh ← encodeField digest data.types fuel data.primary_type data.message
  pure (digest (25 :: 1 :: (dh ++ mh)))

/-- The identifier grammar exactly as the spec words it: the first
character is a letter, underscore, or dollar sign, and every subsequent
character is a letter, digit, underscore, dollar sign, or square bracket
(`[a-zA-Z_$][a-zA-Z_$0-9[\]]*`).  Stated from the spec's words, to be
compared with `typeRegexMatch`, which embeds the source's regex. -/
def SpecIdentGrammar (s : String) : Prop :=
  ∃ c cs, s.toList = c :: cs ∧
    (('a' ≤ c ∧ c ≤ 'z') ∨ ('A' ≤ c ∧ c ≤ 'Z') ∨ c = '_' ∨ c = '$') ∧
    ∀ d ∈ cs,
      ('a' ≤ d ∧ d ≤ 'z') ∨ ('A' ≤ d ∧ d ≤ 'Z') ∨ ('0' ≤ d ∧ d ≤ '9') ∨
      d = '_' ∨ d = '$' ∨ d = '[' ∨ d = ']'

/-- A fixed stand-in digest used to instantiate the abstract hash when
exercising the pipeline on concrete data. -/
def testDigest : List Nat → List Nat := fun _ => List.replicate 32 0

/-- A small concrete request: one declared type `T` with a single `bool`
field, a matching message, and a plain domain. -/
def testData : EIP712 :=
  ⟨[("T", [⟨"x", "bool"⟩])], "T", Json.obj [("x", Json.bool true)],
   ⟨"a", "1", 1, List.replicate 20 0, none⟩⟩

/-! ## Helper lemmas -/

theorem isIdentStart_iff (c : Char) :
    isIdentStart c = true ↔
      (('a' ≤ c ∧ c ≤ 'z') ∨ ('A' ≤ c ∧ c ≤ 'Z') ∨ c = '_' ∨ c = '$') := by
  simp [isIdentStart, or_assoc]

theorem isIdentCont_iff (c : Char) :
    isIdentCont c = true ↔
      (('a' ≤ c ∧ c ≤ 'z') ∨ ('A' ≤ c ∧ c ≤ 'Z') ∨ ('0' ≤ c ∧ c ≤ '9') ∨
       c = '_' ∨ c = '$' ∨ c = '[' ∨ c = ']') := by
  simp [isIdentCont, isIdentStart, or_assoc]
  tauto

theorem typeRegexMatch_iff (s : String) :
    typeRegexMatch s = true ↔ SpecIdentGrammar s := by
  unfold typeRegexMatch SpecIdentGrammar
  cases h : s.toList with
  | nil => simp
  | cons c cs =>
      simp only [Bool.and_eq_true, List.all_eq_true, isIdentStart_iff,
        isIdentCont_iff, decide_eq_true_eq]
      constructor
      · rintro ⟨h1, h2⟩
        exact ⟨c, cs, rfl, h1, fun d hd => h2 d hd⟩
      · rintro ⟨c', cs', heq, h1, h2⟩
        cases heq
        exact ⟨h1, fun d hd => h2 d hd⟩

theorem typeRegexMatch_cons (s : String) (c : Char) (cs : List Char)
    (h : s.toList = c :: cs) :
    typeRegexMatch s = (isIdentStart c && cs.all isIdentCont) := by
  unfold typeRegexMatch
  rw [h]

theorem deserialize_ident_of_no_match (s : String)
    (h : typeRegexMatch s = false) :
    deserialize_ident (Json.str s) = Except.error (DeError.invalidIdentifier s) := by
  simp [deserialize_ident, h]

/-! ## Claim theorems -/

/-- C2: a string is accepted as a field name or field type if and only if
it matches the grammar `[a-zA-Z_$][a-zA-Z_$0-9[\]]*`: its first character
is a letter, underscore, or dollar sign, and every subsequent character is
a letter, digit, underscore, dollar sign, or square bracket. -/
theorem ident_accepted_iff_grammar (s : String) :
    (deserialize_ident (Json.str s)).isOk = true ↔ SpecIdentGrammar s := by
  rw [← typeRegexMatch_iff]
  by_cases h : typeRegexMatch s <;>
    simp [deserialize_ident, h, Except.isOk, Except.toBool]

/-- C9: the empty string is rejected as a field name or field type, and so
is any string whose first character is a digit or a bracket: the
identifier check requires at least one character, and the first character
must be a letter, underscore, or dollar sign. -/
theorem empty_or_digit_or_bracket_start_rejected :
    typeRegexMatch "" = false ∧
    deserialize_ident (Json.str "") = Except.error (DeError.invalidIdentifier "") ∧
    ∀ (s : String) (c : Char) (cs : List Char), s.toList = c :: cs →
      c ∈ ['0', '1', '2', '3', '4', '5', '6', '7', '8', '9', '[', ']'] →
      deserialize_ident (Json.str s) = Except.error (DeError.invalidIdentifier s) := by
  refine ⟨by decide, by rfl, ?_⟩
  intro s c cs hlist hmem
  apply deserialize_ident_of_no_match
  rw [typeRegexMatch_cons s c cs hlist]
  fin_cases hmem <;>
    (rw [show isIdentStart _ = false from by decide]; exact Bool.false_and _)

/-- C9 witness: the string `"9ab"` starts with a digit and is rejected
with an invalid-identifier error. -/
theorem empty_or_digit_or_bracket_start_rejected_witness :
    ("9ab".toList = '9' :: ['a', 'b'] ∧
      '9' ∈ ['0', '1', '2', '3', '4', '5', '6', '7', '8', '9', '[', ']']) ∧
    deserialize_ident (Json.str "9ab")
      = Except.error (DeError.invalidIdentifier "9ab") :=
  ⟨⟨by decide, by decide⟩,
    empty_or_digit_or_bracket_start_rejected.2.2 "9ab" '9' ['a', 'b']
      (by decide) (by decide)⟩

/-- C7: the identifier grammar accepts nested array type strings:
`"Foo[]"` and `"bytes32[][]"` pass validation and are stored unchanged as
field types, and appending a further `[]` marker to any accepted name
yields another accepted name. -/
theorem nested_array_types_accepted :
    deserialize_ident (Json.str "Foo[]") = Except.ok "Foo[]" ∧
    deserialize_ident (Json.str "bytes32[][]") = Except.ok "bytes32[][]" ∧
    deserializeFieldType
        (Json.obj [("name", Json.str "xs"), ("type", Json.str "bytes32[][]")])
      = Except.ok ⟨"xs", "bytes32[][]"⟩ ∧
    ∀ s : String, typeRegexMatch s = true → typeRegexMatch (s ++ "[]") = true := by
  refine ⟨by rfl, by rfl, by rfl, ?_⟩
  intro s h
  cases hl : s.toList with
  | nil =>
      unfold typeRegexMatch at h
      rw [hl] at h
      exact absurd h (by decide)
  | cons c cs =>
      have hl2 : (s ++ "[]").toList = c :: (cs ++ ['[', ']']) := by
        rw [show (s ++ "[]").toList = s.toList ++ "[]".toList from
          String.data_append s "[]", hl]
        rfl
      rw [typeRegexMatch_cons s c cs hl, Bool.and_eq_true,
        List.all_eq_true] at h
      rw [typeRegexMatch_cons (s ++ "[]") c (cs ++ ['[', ']']) hl2,
        Bool.and_eq_true, List.all_eq_true]
      refine ⟨h.1, ?_⟩
      intro d hd
      rcases List.mem_append.mp hd with hd2 | hd2
      · exact h.2 d hd2
      · simp only [List.mem_cons, List.mem_singleton] at hd2
        rcases hd2 with rfl | rfl | h3
        · decide
        · decide
        · cases h3

/-- C7 witness: `"Foo"` is accepted, hence so is `"Foo[]"`. -/
theorem nested_array_types_accepted_witness :
    typeRegexMatch "Foo" = true ∧ typeRegexMatch ("Foo" ++ "[]") = true :=
  ⟨by decide, nested_array_types_accepted.2.2.2 "Foo" (by decide)⟩

/-- C4 counterexample: the claim that accepted identifiers carry brackets
only in well-formed trailing array markers is false: `"a]"` (unmatched
closing bracket) and `"a[b"` (bracket followed by a letter) are both
accepted by the validator. -/
theorem bracket_wellformedness_counterexample :
    deserialize_ident (Json.str "a]") = Except.ok "a]" ∧
    deserialize_ident (Json.str "a[b") = Except.ok "a[b" ∧
    deserialize_ident (Json.str "a][") = Except.ok "a][" := by
  refine ⟨by rfl, by rfl, by rfl⟩

/-- C4 (amended): the validator constrains only the character set, not
bracket placement: brackets may appear anywhere after the first character
of an accepted identifier — including unmatched brackets and brackets
followed by letters — and only the very first character excludes
brackets. -/
theorem brackets_allowed_anywhere_after_first :
    (∀ (s : String) (c : Char) (cs : List Char), s.toList = c :: cs →
      typeRegexMatch s = true → c ≠ '[' ∧ c ≠ ']') ∧
    typeRegexMatch "a[b" = true ∧
    typeRegexMatch "a]" = true ∧
    typeRegexMatch "a[]b" = true := by
  refine ⟨?_, by decide, by decide, by decide⟩
  intro s c cs hlist h
  rw [typeRegexMatch_cons s c cs hlist] at h
  have hc : isIdentStart c = true := (Bool.and_eq_true ..).mp h |>.1
  constructor <;> rintro rfl <;> exact absurd hc (by decide)

/-- C4 witness: `"a[b"` starts with the non-bracket character `'a'`. -/
theorem brackets_allowed_anywhere_after_first_witness :
    ("a[b".toList = 'a' :: ['[', 'b'] ∧ typeRegexMatch "a[b" = true) ∧
    ('a' ≠ '[' ∧ 'a' ≠ ']') :=
  ⟨⟨by decide, by decide⟩,
    brackets_allowed_anywhere_after_first.1 "a[b" 'a' ['[', 'b']
      (by decide) (by decide)⟩

theorem deserializeFieldType_pair_ok (n t : String) (ft : FieldType)
    (h : deserializeFieldType
      (Json.obj [("name", Json.str n), ("type", Json.str t)]) = Except.ok ft) :
    ft = ⟨n, t⟩ := by
  by_cases hn : typeRegexMatch n <;> by_cases ht : typeRegexMatch t <;>
    simp [deserializeFieldType, deserializeFieldTypeEntries, deserialize_ident,
      hn, ht] at h
  cases ft
  simp_all

/-- C1: if a field declaration's name string or type string does not match
the identifier grammar, deserialization of that declaration fails with an
invalid-identifier error naming an offending string; in particular the
type string `"uint bytes32"` (containing a space) is rejected with an
error naming it. -/
theorem invalid_ident_in_field_decl_rejected (n t : String)
    (h : typeRegexMatch n = false ∨ typeRegexMatch t = false) :
    (∃ s, typeRegexMatch s = false ∧
      deserializeFieldType
        (Json.obj [("name", Json.str n), ("type", Json.str t)])
        = Except.error (DeError.invalidIdentifier s)) ∧
    deserializeFieldType
        (Json.obj [("name", Json.str "owner"), ("type", Json.str "uint bytes32")])
      = Except.error (DeError.invalidIdentifier "uint bytes32") := by
  refine ⟨?_, by rfl⟩
  by_cases hn : typeRegexMatch n
  · have ht : typeRegexMatch t = false := by
      rcases h with h | h
      · rw [hn] at h; cases h
      · exact h
    refine ⟨t, ht, ?_⟩
    simp [deserializeFieldType, deserializeFieldTypeEntries, deserialize_ident,
      hn, ht]
  · have hn2 : typeRegexMatch n = false := by simpa using hn
    refine ⟨n, hn2, ?_⟩
    simp [deserializeFieldType, deserializeFieldTypeEntries, deserialize_ident,
      hn2]

/-- C1 witness: the field declaration `{name: "a b", type: "c"}` has an
invalid name and is rejected with an error naming `"a b"`. -/
theorem invalid_ident_in_field_decl_rejected_witness :
    (typeRegexMatch "a b" = false ∨ typeRegexMatch "c" = false) ∧
    ((∃ s, typeRegexMatch s = false ∧
      deserializeFieldType
        (Json.obj [("name", Json.str "a b"), ("type", Json.str "c")])
        = Except.error (DeError.invalidIdentifier s)) ∧
    deserializeFieldType
        (Json.obj [("name", Json.str "owner"), ("type", Json.str "uint bytes32")])
      = Except.error (DeError.invalidIdentifier "uint bytes32")) :=
  ⟨Or.inl (by decide),
    invalid_ident_in_field_decl_rejected "a b" "c" (Or.inl (by decide))⟩

/-- C10: a field declaration whose name or type is a non-string JSON value
fails deserialization: the identifier visitor only implements the string
case, so every other JSON value yields an invalid-type error, and the
enclosing field declaration fails. -/
theorem nonstring_ident_rejected (j : Json) (h : ∀ s, j ≠ Json.str s) :
    deserialize_ident j
      = Except.error (DeError.invalidType "A valid solidity identifier") ∧
    (deserializeFieldType
      (Json.obj [("name", j), ("type", Json.str "uint256")])).isOk = false := by
  have hid : deserialize_ident j
      = Except.error (DeError.invalidType "A valid solidity identifier") := by
    cases j with
    | str s => exact absurd rfl (h s)
    | null => rfl
    | bool b => rfl
    | num n => rfl
    | arr xs => rfl
    | obj fs => rfl
  refine ⟨hid, ?_⟩
  simp [deserializeFieldType, deserializeFieldTypeEntries, hid, Except.isOk,
    Except.toBool]

/-- C10 witness: the number `42` is not a string and is rejected as a field
name. -/
theorem nonstring_ident_rejected_witness :
    (∀ s, Json.num 42 ≠ Json.str s) ∧
    (deserialize_ident (Json.num 42)
      = Except.error (DeError.invalidType "A valid solidity identifier") ∧
    (deserializeFieldType
      (Json.obj [("name", Json.num 42), ("type", Json.str "uint256")])).isOk
        = false) :=
  ⟨fun _ hh => Json.noConfusion hh,
    nonstring_ident_rejected (Json.num 42) (fun _ hh => Json.noConfusion hh)⟩

/-- C8: deserialization preserves a declared field list exactly — when a
list of `{name, type}` declarations deserializes successfully, the stored
`FieldType` sequence has the same length and order, with name and type
strings equal character for character to the input. -/
theorem field_list_preserved (decls : List (String × String))
    (fts : List FieldType)
    (h : deserializeFieldTypeList (decls.map (fun p =>
        Json.obj [("name", Json.str p.1), ("type", Json.str p.2)]))
      = Except.ok fts) :
    fts.map (fun ft => (ft.name, ft.type_)) = decls := by
  induction decls generalizing fts with
  | nil =>
      simp [deserializeFieldTypeList] at h
      simp [← h]
  | cons p rest ih =>
      simp only [List.map] at h
      cases hft : deserializeFieldType
          (Json.obj [("name", Json.str p.1), ("type", Json.str p.2)]) with
      | error e => rw [deserializeFieldTypeList, hft] at h; cases h
      | ok ft =>
          rw [deserializeFieldTypeList, hft] at h
          cases hrest : deserializeFieldTypeList (rest.map (fun p =>
              Json.obj [("name", Json.str p.1), ("type", Json.str p.2)])) with
          | error e => rw [hrest] at h; cases h
          | ok fts' =>
              rw [hrest] at h
              cases h
              have := deserializeFieldType_pair_ok p.1 p.2 ft hft
              subst this
              simp [ih fts' hrest]

/-- C8 witness: the `Mail` field list of the source's own test
deserializes to exactly the declared pairs. -/
theorem field_list_preserved_witness :
    deserializeFieldTypeList
        ([("from", "Person"), ("to", "Person"), ("contents", "string")].map
          (fun p => Json.obj [("name", Json.str p.1), ("type", Json.str p.2)]))
      = Except.ok [⟨"from", "Person"⟩, ⟨"to", "Person"⟩, ⟨"contents", "string"⟩] ∧
    ([⟨"from", "Person"⟩, ⟨"to", "Person"⟩,
      (⟨"contents", "string"⟩ : FieldType)].map (fun ft => (ft.name, ft.type_)))
      = [("from", "Person"), ("to", "Person"), ("contents", "string")] :=
  ⟨by rfl,
    field_list_preserved [("from", "Person"), ("to", "Person"),
      ("contents", "string")]
      [⟨"from", "Person"⟩, ⟨"to", "Person"⟩, ⟨"contents", "string"⟩] (by rfl)⟩

theorem domainEntries_ok_keys_allowed (l : List (String × Json)) :
    ∀ n? v? c? a? s? d,
      deserializeDomainEntries l n? v? c? a? s? = Except.ok d →
      ∀ k ∈ l.map Prod.fst,
        k = "name" ∨ k = "version" ∨ k = "chainId" ∨
          k = "verifyingContract" ∨ k = "salt" := by
  induction l with
  | nil => intro _ _ _ _ _ _ _ k hk; simp at hk
  | cons e rest ih =>
      obtain ⟨k0, j⟩ := e
      intro n? v? c? a? s? d h k hk
      simp only [deserializeDomainEntries] at h
      simp only [List.map_cons, List.mem_cons] at hk
      rcases hk with rfl | hk
      · by_contra hno
        push_neg at hno
        obtain ⟨e1, e2, e3, e4, e5⟩ := hno
        rw [if_neg e1, if_neg e2, if_neg e3, if_neg e4, if_neg e5] at h
        cases h
      · repeat' split at h
        all_goals first
          | exact Except.noConfusion h
          | exact ih _ _ _ _ _ _ h k hk

theorem domainEntries_ok_required (l : List (String × Json)) :
    ∀ n? v? c? a? s? d,
      deserializeDomainEntries l n? v? c? a? s? = Except.ok d →
      ("name" ∈ l.map Prod.fst ∨ n?.isSome) ∧
      ("version" ∈ l.map Prod.fst ∨ v?.isSome) ∧
      ("chainId" ∈ l.map Prod.fst ∨ c?.isSome) ∧
      ("verifyingContract" ∈ l.map Prod.fst ∨ a?.isSome) := by
  induction l with
  | nil =>
      intro n? v? c? a? s? d h
      cases n? <;> cases v? <;> cases c? <;> cases a? <;>
        simp [deserializeDomainEntries] at h ⊢
  | cons e rest ih =>
      obtain ⟨k0, j⟩ := e
      intro n? v? c? a? s? d h
      simp only [deserializeDomainEntries] at h
      simp only [List.map_cons, List.mem_cons]
      repeat' split at h
      all_goals first
        | exact Except.noConfusion h
        | (have h5 := ih _ _ _ _ _ _ h; simp_all [List.mem_cons])

set_option maxRecDepth 8192 in
/-- C5: domain deserialization succeeds only when `name`, `version`,
`chainId`, and `verifyingContract` are all present and every key is one of
those four or `salt` (so any field outside this set of five forces
failure); `salt` may be absent, as the concrete conjunct shows. -/
theorem domain_required_fields_and_closed_key_set :
    (∀ (l : List (String × Json)) (d : EIP712Domain),
      deserializeEIP712Domain (Json.obj l) = Except.ok d →
        ("name" ∈ l.map Prod.fst ∧ "version" ∈ l.map Prod.fst ∧
         "chainId" ∈ l.map Prod.fst ∧ "verifyingContract" ∈ l.map Prod.fst) ∧
        ∀ k ∈ l.map Prod.fst,
          k = "name" ∨ k = "version" ∨ k = "chainId" ∨
            k = "verifyingContract" ∨ k = "salt") ∧
    (deserializeEIP712Domain (Json.obj
      [("name", Json.str "a"), ("version", Json.str "1"),
       ("chainId", Json.num 1),
       ("verifyingContract",
         Json.str "0xaaaaaaaaaaaaaaaaaaaaaaaaaaaaaaaaaaaaaaaa")])
      = Except.ok ⟨"a", "1", 1, List.replicate 20 170, none⟩) := by
  constructor
  · intro l d h
    simp only [deserializeEIP712Domain] at h
    obtain ⟨i1, i2, i3, i4⟩ := domainEntries_ok_required l none none none none none d h
    refine ⟨⟨?_, ?_, ?_, ?_⟩, domainEntries_ok_keys_allowed l none none none none none d h⟩
    · rcases i1 with m | m
      · exact m
      · cases m
    · rcases i2 with m | m
      · exact m
      · cases m
    · rcases i3 with m | m
      · exact m
      · cases m
    · rcases i4 with m | m
      · exact m
      · cases m
  · rfl

set_option maxRecDepth 8192 in
/-- C5 witness: a concrete saltless domain object deserializes
successfully, its required keys are present and every key is in the
allowed set. -/
theorem domain_required_fields_and_closed_key_set_witness :
    deserializeEIP712Domain (Json.obj
      [("name", Json.str "a"), ("version", Json.str "1"),
       ("chainId", Json.num 1),
       ("verifyingContract",
         Json.str "0xaaaaaaaaaaaaaaaaaaaaaaaaaaaaaaaaaaaaaaaa")])
      = Except.ok ⟨"a", "1", 1, List.replicate 20 170, none⟩ ∧
    (("name" ∈ ([("name", Json.str "a"), ("version", Json.str "1"),
       ("chainId", Json.num 1),
       ("verifyingContract",
         Json.str "0xaaaaaaaaaaaaaaaaaaaaaaaaaaaaaaaaaaaaaaaa")].map Prod.fst) ∧
      "version" ∈ ([("name", Json.str "a"), ("version", Json.str "1"),
       ("chainId", Json.num 1),
       ("verifyingContract",
         Json.str "0xaaaaaaaaaaaaaaaaaaaaaaaaaaaaaaaaaaaaaaaa")].map Prod.fst) ∧
      "chainId" ∈ ([("name", Json.str "a"), ("version", Json.str "1"),
       ("chainId", Json.num 1),
       ("verifyingContract",
         Json.str "0xaaaaaaaaaaaaaaaaaaaaaaaaaaaaaaaaaaaaaaaa")].map Prod.fst) ∧
      "verifyingContract" ∈ ([("name", Json.str "a"), ("version", Json.str "1"),
       ("chainId", Json.num 1),
       ("verifyingContract",
         Json.str "0xaaaaaaaaaaaaaaaaaaaaaaaaaaaaaaaaaaaaaaaa")].map Prod.fst)) ∧
     ∀ k ∈ ([("name", Json.str "a"), ("version", Json.str "1"),
       ("chainId", Json.num 1),
       ("verifyingContract",
         Json.str "0xaaaaaaaaaaaaaaaaaaaaaaaaaaaaaaaaaaaaaaaa")].map Prod.fst),
       k = "name" ∨ k = "version" ∨ k = "chainId" ∨
         k = "verifyingContract" ∨ k = "salt") :=
  ⟨by rfl,
    domain_required_fields_and_closed_key_set.1
      [("name", Json.str "a"), ("version", Json.str "1"),
       ("chainId", Json.num 1),
       ("verifyingContract",
         Json.str "0xaaaaaaaaaaaaaaaaaaaaaaaaaaaaaaaaaaaaaaaa")]
      ⟨"a", "1", 1, List.replicate 20 170, none⟩ (by rfl)⟩

theorem eip712Entries_ok_keys_allowed (l : List (String × Json)) :
    ∀ t? p? m? d? r,
      deserializeEIP712Entries l t? p? m? d? = Except.ok r →
      ∀ k ∈ l.map Prod.fst,
        k = "types" ∨ k = "primaryType" ∨ k = "message" ∨ k = "domain" := by
  induction l with
  | nil => intro _ _ _ _ _ _ k hk; simp at hk
  | cons e rest ih =>
      obtain ⟨k0, j⟩ := e
      intro t? p? m? d? r h k hk
      simp only [deserializeEIP712Entries] at h
      simp only [List.map_cons, List.mem_cons] at hk
      rcases hk with rfl | hk
      · by_contra hno
        push_neg at hno
        obtain ⟨e1, e2, e3, e4⟩ := hno
        rw [if_neg e1, if_neg e2, if_neg e3, if_neg e4] at h
        cases h
      · repeat' split at h
        all_goals first
          | exact Except.noConfusion h
          | exact ih _ _ _ _ _ h k hk

theorem deserializeEIP712_accepts (tj dj mj : Json) (p : String)
    (t : List (String × List FieldType)) (d : EIP712Domain)
    (ht : deserializeMessageTypes tj = Except.ok t)
    (hd : deserializeEIP712Domain dj = Except.ok d) :
    deserializeEIP712 (Json.obj
      [("types", tj), ("primaryType", Json.str p), ("domain", dj),
       ("message", mj)]) = Except.ok ⟨t, p, mj, d⟩ := by
  simp [deserializeEIP712, deserializeEIP712Entries, ht, hd]

/-- C6: envelope deserialization fails whenever the input contains a
top-level field other than `types`, `primaryType`, `message`, and
`domain`; an envelope with exactly those four fields, each well-formed
(the types map, primary type string, and domain deserialize, the message
being arbitrary JSON), is accepted. -/
theorem envelope_closed_key_set :
    (∀ (l : List (String × Json)) (k : String), k ∈ l.map Prod.fst →
      k ≠ "types" → k ≠ "primaryType" → k ≠ "message" → k ≠ "domain" →
      (deserializeEIP712 (Json.obj l)).isOk = false) ∧
    (∀ (tj dj mj : Json) (p : String) (t : List (String × List FieldType))
      (d : EIP712Domain),
      deserializeMessageTypes tj = Except.ok t →
      deserializeEIP712Domain dj = Except.ok d →
      deserializeEIP712 (Json.obj
        [("types", tj), ("primaryType", Json.str p), ("domain", dj),
         ("message", mj)]) = Except.ok ⟨t, p, mj, d⟩) := by
  constructor
  · intro l k hk h1 h2 h3 h4
    cases hx : deserializeEIP712 (Json.obj l) with
    | error e => rfl
    | ok r =>
        have hx2 : deserializeEIP712Entries l none none none none = Except.ok r := by
          simpa [deserializeEIP712] using hx
        rcases eip712Entries_ok_keys_allowed l none none none none r hx2 k hk with
          rfl | rfl | rfl | rfl
        · exact absurd rfl h1
        · exact absurd rfl h2
        · exact absurd rfl h3
        · exact absurd rfl h4
  · exact fun tj dj mj p t d ht hd => deserializeEIP712_accepts tj dj mj p t d ht hd

set_option maxRecDepth 8192 in
/-- C6 witness: an envelope with a stray `extra` field is rejected, and
the canonical four-field envelope with concrete well-formed parts is
accepted. -/
theorem envelope_closed_key_set_witness :
    ("extra" ∈ ([("types", Json.obj []), ("extra", Json.null)].map Prod.fst) ∧
      "extra" ≠ "types" ∧ "extra" ≠ "primaryType" ∧ "extra" ≠ "message" ∧
      "extra" ≠ "domain") ∧
    (deserializeEIP712 (Json.obj
      [("types", Json.obj []), ("extra", Json.null)])).isOk = false ∧
    (deserializeMessageTypes (Json.obj [("T", Json.arr [Json.obj
        [("name", Json.str "x"), ("type", Json.str "bool")]])])
      = Except.ok [("T", [⟨"x", "bool"⟩])] ∧
     deserializeEIP712Domain (Json.obj
      [("name", Json.str "a"), ("version", Json.str "1"),
       ("chainId", Json.num 1),
       ("verifyingContract",
         Json.str "0xaaaaaaaaaaaaaaaaaaaaaaaaaaaaaaaaaaaaaaaa")])
      = Except.ok ⟨"a", "1", 1, List.replicate 20 170, none⟩) ∧
    deserializeEIP712 (Json.obj
      [("types", Json.obj [("T", Json.arr [Json.obj
          [("name", Json.str "x"), ("type", Json.str "bool")]])]),
       ("primaryType", Json.str "T"),
       ("domain", Json.obj
        [("name", Json.str "a"), ("version", Json.str "1"),
         ("chainId", Json.num 1),
         ("verifyingContract",
           Json.str "0xaaaaaaaaaaaaaaaaaaaaaaaaaaaaaaaaaaaaaaaa")]),
       ("message", Json.bool true)])
      = Except.ok ⟨[("T", [⟨"x", "bool"⟩])], "T", Json.bool true,
          ⟨"a", "1", 1, List.replicate 20 170, none⟩⟩ :=
  ⟨⟨by decide, by decide, by decide, by decide, by decide⟩,
    envelope_closed_key_set.1 [("types", Json.obj []), ("extra", Json.null)]
      "extra" (by decide) (by decide) (by decide) (by decide) (by decide),
    ⟨by rfl, by rfl⟩,
    envelope_closed_key_set.2
      (Json.obj [("T", Json.arr [Json.obj
        [("name", Json.str "x"), ("type", Json.str "bool")]])])
      (Json.obj
        [("name", Json.str "a"), ("version", Json.str "1"),
         ("chainId", Json.num 1),
         ("verifyingContract",
           Json.str "0xaaaaaaaaaaaaaaaaaaaaaaaaaaaaaaaaaaaaaaaa")])
      (Json.bool true) "T" [("T", [⟨"x", "bool"⟩])]
      ⟨"a", "1", 1, List.replicate 20 170, none⟩ (by rfl) (by rfl)⟩

/-- C3: the full hashing pipeline is a deterministic pure function of its
input — for any fixed input, any two invocations produce identical output,
and on success the output is a 32-byte value (given that the protocol
digest returns 32 bytes). -/
theorem hash_structured_data_deterministic (digest : List Nat → List Nat)
    (fuel : Nat) (a b : EIP712) (h : a = b) :
    hash_structured_data digest fuel a = hash_structured_data digest fuel b ∧
    (∀ out, (∀ bs, (digest bs).length = 32) →
      hash_structured_data digest fuel a = Except.ok out → out.length = 32) := by
  subst h
  refine ⟨rfl, ?_⟩
  intro out hd h2
  simp only [hash_structured_data, bind, Except.bind, pure, Except.pure] at h2
  cases he : encodeField digest a.types fuel a.primary_type a.message with
  | error e => rw [he] at h2; cases h2
  | ok mh =>
      rw [he] at h2
      cases h2
      exact hd _

/-- C3 witness: two invocations of the pipeline on the concrete request
`testData` agree, and the success output under a 32-byte digest has 32
bytes. -/
theorem hash_structured_data_deterministic_witness :
    testData = testData ∧
    (hash_structured_data testDigest 5 testData
        = hash_structured_data testDigest 5 testData ∧
      ∀ out, (∀ bs, (testDigest bs).length = 32) →
        hash_structured_data testDigest 5 testData = Except.ok out →
        out.length = 32) :=
  ⟨rfl, hash_structured_data_deterministic testDigest 5 testData testData rfl⟩
